import Mathlib

/-!
Shallow embedding of the ATLANTIS-AI task/assignment/work-bot lifecycle
(`server/atlantis-ai.js`, `server/sub-ai-agents.js`,
`scripts/init-database.js`).  The relational store is a record of row
lists; SQLite autoincrement ids are `length + 1`; `uuidv4()` is a
counter; `CURRENT_TIMESTAMP` is a logical clock.  External LLM calls are
oracle parameters: the embedded functions receive the outcome of each
call (failure or a parsed response) and follow the source's control flow
on it.  JavaScript exceptions are `Except`; a thrown-and-caught
exception leaves all store writes made before the throw in place, so
fallible operations return the store alongside the `Except`.
-/

namespace Atlantis

/-- JS `Math.round(100 * c / t)` for `t > 0`: half-up rounding of the
nonnegative rational `100*c/t`, i.e. `⌊(200*c + t) / (2*t)⌋`. -/
def roundPct (c t : Nat) : Nat := (200 * c + t) / (2 * t)

/-- Parsed value of the `understanding` JSON blob.  `primaryIntent` is
`Option` because the code can place JS `undefined` there. -/
structure Understanding where
  primaryIntent : Option String
  complexity : String
  requiredExpertise : List String
deriving Repr, DecidableEq

/-- Row of the `tasks` table (columns the embedded logic reads). -/
structure TaskRow where
  id : Nat
  task_id : String
  user_id : Nat
  title : String
  description : String
  priority : String
  status : String
  intent : Option Understanding
  completed_at : Option Nat
deriving Repr, DecidableEq

/-- Row of the `sub_ai_agents` table. -/
structure AgentRow where
  id : Nat
  agent_id : String
  name : String
  specialization : String
  current_load : Int
deriving Repr, DecidableEq

/-- The TEXT column `assigned_elements` holds a JSON blob;
`JSON.parse` of it either yields an array of strings or throws. -/
inductive ElementsCol where
  | arr (elements : List String)
  | invalid (raw : String)
deriving Repr, DecidableEq

/-- Row of the `task_assignments` table.  `progress = none` models SQL
NULL (binding JS `NaN` stores NULL). -/
structure AssignRow where
  id : Nat
  assignment_id : String
  task_id : Nat
  agent_id : Nat
  assigned_elements : ElementsCol
  status : String
  progress : Option Int
  started_at : Option Nat
  completed_at : Option Nat
deriving Repr, DecidableEq

/-- The JSON shapes the source stores in `work_bots.result`:
`{success:true, output, timestamp}`, `{success:false, error}`
(both produced by `executeWorkBot`), and `{error}` (produced by the
per-bot catch in `executeWorkBots`). -/
inductive StoredResult where
  | okRes (output : String) (timestamp : Nat)
  | failRes (error : String)
  | errOnly (error : String)
deriving Repr, DecidableEq

/-- Row of the `work_bots` table. -/
structure BotRow where
  id : Nat
  bot_id : String
  assignment_id : Nat
  agent_id : Nat
  bot_type : String
  task_description : String
  status : String
  result : Option StoredResult
  started_at : Option Nat
  completed_at : Option Nat
deriving Repr, DecidableEq

/-- Row of the `progress_updates` table. -/
structure UpdateRow where
  update_id : String
  task_id : Nat
  source_type : String
  source_id : String
  message : String
  progress_percentage : Option Int
  created_at : Nat
deriving Repr, DecidableEq

/-- The relational store plus the uuid counter and the logical clock. -/
structure Store where
  tasks : List TaskRow
  agents : List AgentRow
  assignments : List AssignRow
  workBots : List BotRow
  updates : List UpdateRow
  plans : List (String × Nat)
  uuid : Nat
  clock : Nat
deriving Repr, DecidableEq

/-- `UPDATE tasks ... WHERE id = ?`. -/
def updateTaskRows (s : Store) (taskId : Nat) (f : TaskRow → TaskRow) : Store :=
  { s with tasks := s.tasks.map fun t => if t.id = taskId then f t else t }

/-- `UPDATE sub_ai_agents ... WHERE id = ?`. -/
def updateAgentRows (s : Store) (agentId : Nat) (f : AgentRow → AgentRow) : Store :=
  { s with agents := s.agents.map fun a => if a.id = agentId then f a else a }

/-- `UPDATE task_assignments ... WHERE id = ?`. -/
def updateAssignRows (s : Store) (assignId : Nat) (f : AssignRow → AssignRow) : Store :=
  { s with assignments := s.assignments.map fun a => if a.id = assignId then f a else a }

/-- `UPDATE work_bots ... WHERE bot_id = ?`. -/
def updateBotRows (s : Store) (botId : String) (f : BotRow → BotRow) : Store :=
  { s with workBots := s.workBots.map fun b => if b.bot_id = botId then f b else b }

/-- `addProgressUpdate` (both classes): append-only insert into
`progress_updates`, stamped with the clock. -/
def addProgressUpdate (s : Store) (taskId : Nat) (sourceType sourceId message : String)
    (progress : Option Int) : Store :=
  { s with
    updates := s.updates ++
      [{ update_id := "update-" ++ toString s.uuid, task_id := taskId,
         source_type := sourceType, source_id := sourceId, message := message,
         progress_percentage := progress, created_at := s.clock }],
    uuid := s.uuid + 1,
    clock := s.clock + 1 }

/-- Observation helpers (SELECT ... WHERE id/bot_id = ?). -/
def taskStatusOf (s : Store) (taskId : Nat) : Option String :=
  (s.tasks.find? fun t => t.id = taskId).map (·.status)

def assignStatusOf (s : Store) (assignId : Nat) : Option String :=
  (s.assignments.find? fun a => a.id = assignId).map (·.status)

def assignProgressOf (s : Store) (assignId : Nat) : Option (Option Int) :=
  (s.assignments.find? fun a => a.id = assignId).map (·.progress)

def agentLoadOf (s : Store) (agentRowId : Nat) : Option Int :=
  (s.agents.find? fun a => a.id = agentRowId).map (·.current_load)

def botStatusOf (s : Store) (botId : String) : Option String :=
  (s.workBots.find? fun b => b.bot_id = botId).map (·.status)

def botResultOf (s : Store) (botId : String) : Option (Option StoredResult) :=
  (s.workBots.find? fun b => b.bot_id = botId).map (·.result)

/-! ## Master coordinator (`AtlantisAI`, server/atlantis-ai.js) -/

/-- The fields of the user input object that `createTask` binds.
`none` is JS `undefined` (field absent). -/
structure TaskInput where
  userId : Option Nat
  title : Option String
  description : Option String
  priority : Option String
deriving Repr, DecidableEq

/-- The object `createTask` returns: `{id, task_id, ...input}`.  Later
steps read `id`, `task_id`, `title`, `description` from it. -/
structure CreatedTask where
  id : Nat
  task_id : String
  title : String
  description : Option String
deriving Repr, DecidableEq

/-- The driver error better-sqlite3 raises when a bound parameter is
`undefined` (a missing required field reaches `stmt.run` unchecked). -/
def bindErrMsg : String := "SQLite3 can only bind numbers, strings, bigints, buffers, and null"

/-- `AtlantisAI.createTask`: inserts the task row (status defaults to
`pending`, `description` defaults to the empty string via
`input.description || ''`).  A missing `userId` or `title` makes
`stmt.run` throw before any row is written. -/
def createTask (s : Store) (input : TaskInput) : Except String CreatedTask × Store :=
  match input.userId, input.title with
  | some uid, some title =>
    let row : TaskRow :=
      { id := s.tasks.length + 1, task_id := "task-" ++ toString s.uuid,
        user_id := uid, title := title,
        description := input.description.getD "",
        priority := input.priority.getD "normal",
        status := "pending", intent := none, completed_at := none }
    (Except.ok { id := row.id, task_id := row.task_id, title := title,
                 description := input.description },
     { s with tasks := s.tasks ++ [row], uuid := s.uuid + 1 })
  | _, _ => (Except.error bindErrMsg, s)

/-- `AtlantisAI.understandIntent`: on a successful external call the
parsed understanding is stored into `tasks.intent`; on failure the
hard-coded fallback object is returned and the row is untouched. -/
def understandIntent (s : Store) (task : CreatedTask) (resp : Option Understanding) :
    Understanding × Store :=
  match resp with
  | some u => (u, updateTaskRows s task.id fun t => { t with intent := some u })
  | none =>
    ({ primaryIntent := task.description, complexity := "Moderate",
       requiredExpertise := ["General"] }, s)

/-- A work package of a project plan. -/
structure WorkPackage where
  wpId : String
  name : String
  assignedTo : String
  elements : List String
deriving Repr, DecidableEq

/-- A project plan. -/
structure Plan where
  overview : String
  workPackages : List WorkPackage
deriving Repr, DecidableEq

/-- The fallback plan built in `createProjectPlan`'s catch. -/
def fallbackPlan : Plan :=
  { overview := "Auto-generated basic plan",
    workPackages := [{ wpId := "wp-1", name := "Complete task",
                       assignedTo := "sub-ai-code",
                       elements := ["Main implementation"] }] }

/-- `AtlantisAI.createProjectPlan`: on success the plan is persisted to
`project_plans`; on failure the fallback plan is returned unpersisted. -/
def createProjectPlan (s : Store) (task : CreatedTask) (resp : Option Plan) : Plan × Store :=
  match resp with
  | some p =>
    (p, { s with plans := s.plans ++ [("plan-" ++ toString s.uuid, task.id)],
                 uuid := s.uuid + 1 })
  | none => (fallbackPlan, s)

/-- Element of the `assignments` array `delegateToSubAIs` returns. -/
structure AssignmentSummary where
  assignmentId : String
  agentName : String
  workPackage : String
  elements : List String
deriving Repr, DecidableEq

/-- The per-work-package loop of `AtlantisAI.delegateToSubAIs`: look the
agent up by external id, skip the package when unknown, otherwise insert
the assignment, increment the agent's load and append a progress
update. -/
def delegateLoop (s : Store) (taskId : Nat) :
    List WorkPackage → List AssignmentSummary → List AssignmentSummary × Store
  | [], acc => (acc, s)
  | wp :: rest, acc =>
    match s.agents.find? fun ag => ag.agent_id = wp.assignedTo with
    | none => delegateLoop s taskId rest acc
    | some ag =>
      let assignmentId := "assign-" ++ toString s.uuid
      let row : AssignRow :=
        { id := s.assignments.length + 1, assignment_id := assignmentId,
          task_id := taskId, agent_id := ag.id,
          assigned_elements := ElementsCol.arr wp.elements,
          status := "assigned", progress := some 0,
          started_at := none, completed_at := none }
      let s1 : Store := { s with assignments := s.assignments ++ [row], uuid := s.uuid + 1 }
      let s2 := updateAgentRows s1 ag.id fun a => { a with current_load := a.current_load + 1 }
      let s3 := addProgressUpdate s2 taskId "atlantis" "ATLANTIS"
        ("Assigned \"" ++ wp.name ++ "\" to " ++ ag.name) (some 10)
      delegateLoop s3 taskId rest
        (acc ++ [{ assignmentId := assignmentId, agentName := ag.name,
                   workPackage := wp.name, elements := wp.elements }])

/-- `AtlantisAI.delegateToSubAIs`: run the loop, then set the task's
status to `in-progress`. -/
def delegateToSubAIs (s : Store) (taskId : Nat) (plan : Plan) :
    List AssignmentSummary × Store :=
  let (acc, s1) := delegateLoop s taskId plan.workPackages []
  (acc, updateTaskRows s1 taskId fun t => { t with status := "in-progress" })

/-- `SELECT ta.* FROM task_assignments ta JOIN sub_ai_agents sa ON
ta.agent_id = sa.id WHERE ta.task_id = ?`. -/
def taskAssignments (s : Store) (taskId : Nat) : List AssignRow :=
  s.assignments.filter fun ta =>
    ta.task_id = taskId && s.agents.any fun ag => ag.id = ta.agent_id

/-- `AtlantisAI.finalizeTask`: stamp the task completed and append the
final 100% update. -/
def finalizeTask (s : Store) (taskId : Nat) : Store :=
  let s1 := updateTaskRows s taskId fun t =>
    { t with status := "completed", completed_at := some s.clock }
  addProgressUpdate s1 taskId "atlantis" "ATLANTIS"
    "Task completed successfully! All work packages finished." (some 100)

/-- Return value of `monitorProgress`. -/
structure MonitorResult where
  completed : Nat
  total : Nat
  progress : Nat
deriving Repr, DecidableEq

/-- `AtlantisAI.monitorProgress` (the spec's `checkProgress`): count the
task's completed assignments, append a summary update, and finalize the
task exactly when `completed == total && total > 0`. -/
def monitorProgress (s : Store) (taskId : Nat) : MonitorResult × Store :=
  let asg := taskAssignments s taskId
  let completed := (asg.filter fun a => a.status = "completed").length
  let total := asg.length
  let progress := if total > 0 then roundPct completed total else 0
  let s1 := addProgressUpdate s taskId "atlantis" "ATLANTIS"
    ("Overall progress: " ++ toString completed ++ "/" ++ toString total ++
      " assignments completed") (some (Int.ofNat progress))
  if completed = total ∧ total > 0 then
    (⟨completed, total, progress⟩, finalizeTask s1 taskId)
  else
    (⟨completed, total, progress⟩, s1)

/-- The envelope `receiveTask` resolves with. -/
structure Envelope where
  success : Bool
  taskId : Option String
  understanding : Option Understanding
  projectPlan : Option Plan
  assignments : Option (List AssignmentSummary)
  error : Option String
deriving Repr, DecidableEq

/-- `AtlantisAI.receiveTask`: create the task row, obtain the
understanding and the plan (each falling back on external failure),
delegate, run one progress check, and return the success envelope; any
throw is caught and returned as `{success:false, error}`.  The only
fallible step in the embedded pipeline is `createTask` (the later steps
catch their external calls internally). -/
def receiveTask (s : Store) (input : TaskInput) (intentResp : Option Understanding)
    (planResp : Option Plan) : Envelope × Store :=
  let ct := createTask s input
  match ct.1 with
  | Except.error e =>
    ({ success := false, taskId := none, understanding := none, projectPlan := none,
       assignments := none, error := some e }, ct.2)
  | Except.ok task =>
    let ui := understandIntent ct.2 task intentResp
    let pp := createProjectPlan ui.2 task planResp
    let dg := delegateToSubAIs pp.2 task.id pp.1
    let mp := monitorProgress dg.2 task.id
    ({ success := true, taskId := some task.task_id, understanding := some ui.1,
       projectPlan := some pp.1, assignments := some dg.1, error := none }, mp.2)

/-- Row `a` was created no earlier than row `b` — the order
`ORDER BY created_at DESC` sorts by. -/
def newerEq (a b : UpdateRow) : Prop := b.created_at ≤ a.created_at

instance : DecidableRel newerEq := fun a b => Nat.decLe b.created_at a.created_at

instance : IsTotal UpdateRow newerEq :=
  ⟨fun a b => Nat.le_total b.created_at a.created_at⟩

instance : IsTrans UpdateRow newerEq :=
  ⟨fun _ _ _ hab hbc => Nat.le_trans hbc hab⟩

/-- `ORDER BY created_at DESC` as a (stable) sort. -/
def sortUpdatesDesc (l : List UpdateRow) : List UpdateRow :=
  List.insertionSort newerEq l

/-- The join `getTaskStatus` performs for the task's assignments: each
assignment row together with its agent's name and specialization (an
inner join, so rows whose agent is missing drop out). -/
def joinAssignments (s : Store) (taskRowId : Nat) : List (AssignRow × String × String) :=
  s.assignments.filterMap fun ta =>
    if ta.task_id = taskRowId then
      (s.agents.find? fun ag => ag.id = ta.agent_id).map fun ag =>
        (ta, ag.name, ag.specialization)
    else none

/-- Result of `getTaskStatus`: either the not-found object or the
task/assignments/updates join. -/
inductive StatusResult where
  | err (msg : String)
  | ok (task : TaskRow) (assignments : List (AssignRow × String × String))
      (updates : List UpdateRow)
deriving Repr, DecidableEq

/-- `AtlantisAI.getTaskStatus`. -/
def getTaskStatus (s : Store) (taskId : String) : StatusResult :=
  match s.tasks.find? fun t => t.task_id = taskId with
  | none => StatusResult.err "Task not found"
  | some t =>
    StatusResult.ok t (joinAssignments s t.id)
      (sortUpdatesDesc (s.updates.filter fun u => u.task_id = t.id))

/-! ## Agent coordinator (`SubAIAgent`, server/sub-ai-agents.js) -/

/-- The per-instance fields of `SubAIAgent` that the embedded logic
reads. -/
structure AgentCtx where
  agentId : String
  name : String
  specialization : String
deriving Repr, DecidableEq

/-- `this.maxWorkBots`. -/
def maxWorkBots : Nat := 5

/-- One work-bot spec of a decomposition (`analysis.tasks[i]`). -/
structure TaskSpec where
  description : String
  botType : String
  expectedOutput : String
deriving Repr, DecidableEq

/-- The parsed decomposition.  `tasks = none` models a response that
parsed as JSON but lacks a `tasks` array, so that
`analysis.tasks.slice` later throws. -/
structure Analysis where
  tasks : Option (List TaskSpec)
  strategy : String
deriving Repr, DecidableEq

/-- Outcome of the decomposition call in `analyzeAssignment`: the call
(or `JSON.parse` of its reply) threw, or it produced a parsed value. -/
inductive AnalysisResp where
  | apiFail (msg : String)
  | parsed (a : Analysis)
deriving Repr, DecidableEq

/-- The fallback spec built per element in `analyzeAssignment`'s
catch. -/
def fallbackSpec (e : String) : TaskSpec :=
  { description := e, botType := "general", expectedOutput := "Complete: " ++ e }

/-- `SubAIAgent.analyzeAssignment`: `JSON.parse(assignment.assigned_elements)`
runs before the try block, so an unparsable column throws out of the
function; the reasoning call itself falls back to one `general` spec
per element. -/
def analyzeAssignment (a : AssignRow) (resp : AnalysisResp) : Except String Analysis :=
  match a.assigned_elements with
  | ElementsCol.invalid _ => Except.error "Unexpected token in JSON"
  | ElementsCol.arr elements =>
    match resp with
    | AnalysisResp.apiFail _ =>
      Except.ok { tasks := some (elements.map fallbackSpec),
                  strategy := "Sequential execution" }
    | AnalysisResp.parsed a => Except.ok a

/-- The in-memory object `createWorkBots` pushes per bot. -/
structure BotHandle where
  botId : String
  type : String
  description : String
  expectedOutput : String
deriving Repr, DecidableEq

/-- The loop body of `createWorkBots`: each iteration looks the agent
row up by external id (throwing on `undefined` when it is missing) and
inserts one `work_bots` row with status `created`. -/
def createBotsLoop (s : Store) (agent : AgentCtx) (assignId : Nat) :
    List TaskSpec → Except String (List BotHandle) × Store
  | [] => (Except.ok [], s)
  | spec :: rest =>
    match s.agents.find? fun ag => ag.agent_id = agent.agentId with
    | none => (Except.error "Cannot read properties of undefined (reading id)", s)
    | some agRec =>
      let botId := "bot-" ++ toString s.uuid
      let row : BotRow :=
        { id := s.workBots.length + 1, bot_id := botId, assignment_id := assignId,
          agent_id := agRec.id, bot_type := spec.botType,
          task_description := spec.description, status := "created",
          result := none, started_at := none, completed_at := none }
      let s1 : Store := { s with workBots := s.workBots ++ [row], uuid := s.uuid + 1 }
      let r := createBotsLoop s1 agent assignId rest
      match r.1 with
      | Except.ok handles =>
        (Except.ok ({ botId := botId, type := spec.botType,
                      description := spec.description,
                      expectedOutput := spec.expectedOutput } :: handles), r.2)
      | Except.error e => (Except.error e, r.2)

/-- `SubAIAgent.createWorkBots`: `analysis.tasks.slice(0, this.maxWorkBots)`
throws when `tasks` is missing; otherwise the spec list is truncated to
`maxWorkBots` and one row is inserted per remaining spec. -/
def createWorkBots (s : Store) (agent : AgentCtx) (a : AssignRow) (analysis : Analysis) :
    Except String (List BotHandle) × Store :=
  match analysis.tasks with
  | none => (Except.error "Cannot read properties of undefined (reading slice)", s)
  | some specs => createBotsLoop s agent a.id (specs.take maxWorkBots)

/-- Outcome of processing one bot inside `executeWorkBots`' loop body:
either `executeWorkBot` returned (with `success` per its own
try/catch), or the body threw (e.g. a store failure), which the per-bot
catch handles. -/
inductive BotExec where
  | ran (success : Bool) (payload : String)
  | thrown (msg : String)
deriving Repr, DecidableEq

/-- The per-bot loop of `executeWorkBots`: mark the bot running; if
`executeWorkBot` returns, record status `completed` with its result
object (`{success:true, output, timestamp}` or `{success:false,
error}`) and append a progress update; if the body throws, the catch
records status `failed` with result `{error}` and the loop moves on to
the next bot. -/
def execLoop (s : Store) (a : AssignRow) (exec : Nat → BotExec) :
    List BotHandle → Nat → Store
  | [], _ => s
  | bot :: rest, i =>
    let s1 := updateBotRows s bot.botId fun b =>
      { b with status := "running", started_at := some s.clock }
    match exec i with
    | BotExec.ran success payload =>
      let res := if success then StoredResult.okRes payload s1.clock
                 else StoredResult.failRes payload
      let s2 := updateBotRows s1 bot.botId fun b =>
        { b with status := "completed", result := some res,
                 completed_at := some s1.clock }
      let s3 := addProgressUpdate s2 a.task_id "sub-ai" bot.botId
        ("Work bot completed: " ++ bot.description.take 50 ++ "...") none
      execLoop s3 a exec rest (i + 1)
    | BotExec.thrown msg =>
      let s2 := updateBotRows s1 bot.botId fun b =>
        { b with status := "failed", result := some (StoredResult.errOnly msg) }
      execLoop s2 a exec rest (i + 1)

/-- `SELECT COUNT(*) FROM work_bots WHERE assignment_id = ? AND status
= "completed"`. -/
def countCompletedBots (s : Store) (assignId : Nat) : Nat :=
  (s.workBots.filter fun b => b.assignment_id = assignId && b.status = "completed").length

/-- `SubAIAgent.executeWorkBots`: run every bot, then write the
assignment's progress as `Math.round(completed / workBots.length * 100)`.
With zero bots this is `0/0 = NaN` (there is no guard), which SQLite
stores as NULL — modelled as `none`. -/
def executeWorkBots (s : Store) (bots : List BotHandle) (a : AssignRow)
    (exec : Nat → BotExec) : Store :=
  let s1 := execLoop s a exec bots 0
  let progress : Option Int :=
    if bots.length = 0 then none
    else some (Int.ofNat (roundPct (countCompletedBots s1 a.id) bots.length))
  updateAssignRows s1 a.id fun r => { r with progress := progress }

/-- `SubAIAgent.reportToAtlantis`: recount the assignment's bots, set
the terminal status (`completed` iff every bot row has status
`completed`, else `partial`), stamp `completed_at`, then decrement the
agent's load and append the summary update.  The agent-row lookup
happens after the status write; if it yields `undefined` the function
throws with the status already written and the load untouched. -/
def reportToAtlantis (s : Store) (agent : AgentCtx) (a : AssignRow) :
    Except String Unit × Store :=
  let results := s.workBots.filter fun b => b.assignment_id = a.id
  let completed := (results.filter fun b => b.status = "completed").length
  let total := results.length
  let status := if completed = total then "completed" else "partial"
  let s1 := updateAssignRows s a.id fun r =>
    { r with status := status, completed_at := some s.clock }
  match s1.agents.find? fun ag => ag.agent_id = agent.agentId with
  | none => (Except.error "Cannot read properties of undefined (reading id)", s1)
  | some agRec =>
    let s2 := updateAgentRows s1 agRec.id fun ag =>
      { ag with current_load := ag.current_load - 1 }
    let s3 := addProgressUpdate s2 a.task_id "sub-ai" agent.agentId
      (agent.name ++ " completed assignment: " ++ toString completed ++ "/" ++
        toString total ++ " work bots successful") none
    (Except.ok (), s3)

/-- `SubAIAgent.updateAssignmentStatus`: sets `started_at` first when
moving to `in-progress`, then writes the status. -/
def updateAssignmentStatus (s : Store) (assignId : Nat) (status : String) : Store :=
  let s1 := if status = "in-progress" then
      updateAssignRows s assignId fun r => { r with started_at := some s.clock }
    else s
  updateAssignRows s1 assignId fun r => { r with status := status }

/-- Return value of `processAssignment`. -/
structure ProcessResult where
  success : Bool
  workBots : Nat
  error : Option String
deriving Repr, DecidableEq

/-- `SubAIAgent.processAssignment`: mark in-progress, analyze, create
and execute the bots, report back; any exception is caught, the
assignment is marked `failed`, and a failure result is returned. -/
def processAssignment (s : Store) (agent : AgentCtx) (a : AssignRow)
    (resp : AnalysisResp) (exec : Nat → BotExec) : ProcessResult × Store :=
  let s1 := updateAssignmentStatus s a.id "in-progress"
  match analyzeAssignment a resp with
  | Except.error e =>
    ({ success := false, workBots := 0, error := some e },
     updateAssignmentStatus s1 a.id "failed")
  | Except.ok analysis =>
    let cw := createWorkBots s1 agent a analysis
    match cw.1 with
    | Except.error e =>
      ({ success := false, workBots := 0, error := some e },
       updateAssignmentStatus cw.2 a.id "failed")
    | Except.ok bots =>
      let s3 := executeWorkBots cw.2 bots a exec
      let rep := reportToAtlantis s3 agent a
      match rep.1 with
      | Except.error e =>
        ({ success := false, workBots := 0, error := some e },
         updateAssignmentStatus rep.2 a.id "failed")
      | Except.ok _ =>
        ({ success := true, workBots := bots.length, error := none }, rep.2)

/-! ## Seed data (`scripts/init-database.js`, `seedSubAIAgents`) -/

/-- The 12 seeded agent rows, in insertion order, with autoincrement
ids 1–12, default status `active` and `current_load = 0`. -/
def seededAgents : List AgentRow :=
  [{ id := 1, agent_id := "sub-ai-code", name := "Code Architect",
     specialization := "Code Development", current_load := 0 },
   { id := 2, agent_id := "sub-ai-architecture", name := "System Architect",
     specialization := "Software Architecture", current_load := 0 },
   { id := 3, agent_id := "sub-ai-testing", name := "Quality Assurance",
     specialization := "Testing & QA", current_load := 0 },
   { id := 4, agent_id := "sub-ai-security", name := "Security Guardian",
     specialization := "Security & Compliance", current_load := 0 },
   { id := 5, agent_id := "sub-ai-docs", name := "Documentation Expert",
     specialization := "Documentation", current_load := 0 },
   { id := 6, agent_id := "sub-ai-devops", name := "DevOps Engineer",
     specialization := "DevOps & CI/CD", current_load := 0 },
   { id := 7, agent_id := "sub-ai-datascience", name := "Data Scientist",
     specialization := "Data Science & ML", current_load := 0 },
   { id := 8, agent_id := "sub-ai-uiux", name := "UI/UX Designer",
     specialization := "User Interface & Experience", current_load := 0 },
   { id := 9, agent_id := "sub-ai-backend", name := "Backend Specialist",
     specialization := "Backend Development", current_load := 0 },
   { id := 10, agent_id := "sub-ai-frontend", name := "Frontend Specialist",
     specialization := "Frontend Development", current_load := 0 },
   { id := 11, agent_id := "sub-ai-database", name := "Database Expert",
     specialization := "Database Design & Optimization", current_load := 0 },
   { id := 12, agent_id := "sub-ai-api", name := "API Designer",
     specialization := "API Design & Integration", current_load := 0 }]

/-- The store right after `initializeDatabase` + `seedSubAIAgents`. -/
def seededStore : Store :=
  { tasks := [], agents := seededAgents, assignments := [], workBots := [],
    updates := [], plans := [], uuid := 0, clock := 0 }

/-- The `SubAIAgent` instance constructed from a seeded agent row. -/
def ctxOf (row : AgentRow) : AgentCtx :=
  { agentId := row.agent_id, name := row.name, specialization := row.specialization }

/-- Closed form of the bot-handle list `createBotsLoop` returns when
the agent row resolves: one handle per spec, bot ids taken from
consecutive uuid-counter values (proof helper, not part of the
embedding). -/
def expectedHandles (u : Nat) : List TaskSpec → List BotHandle
  | [] => []
  | spec :: rest =>
    { botId := "bot-" ++ toString u, type := spec.botType,
      description := spec.description, expectedOutput := spec.expectedOutput } ::
      expectedHandles (u + 1) rest

/-! ## Concrete scenarios

Concrete runs of the embedded pipeline, used to evaluate the embedded
functions at specific inputs.  Assignment rows handed to
`processAssignment` are read back from the store, as the pending-
assignment sweep does. -/

/-- Fallback rows for `Option.getD` when reading a row back from a
store (never actually hit in the scenarios below). -/
def arbAssign : AssignRow :=
  { id := 0, assignment_id := "", task_id := 0, agent_id := 0,
    assigned_elements := ElementsCol.arr [], status := "", progress := none,
    started_at := none, completed_at := none }

def arbTask : TaskRow :=
  { id := 0, task_id := "", user_id := 0, title := "", description := "",
    priority := "", status := "", intent := none, completed_at := none }

/-- The `SubAIAgent` for the seeded `sub-ai-code` agent. -/
def codeAgentCtx : AgentCtx :=
  { agentId := "sub-ai-code", name := "Code Architect",
    specialization := "Code Development" }

/-- The input of the spec's all-external-calls-failing scenario. -/
def scenarioInput : TaskInput :=
  { userId := some 1, title := some "Build API",
    description := some "Build a REST API", priority := none }

/-- Store after `receiveTask` on the seeded store with every external
call failing: one task, one fallback assignment for `sub-ai-code`. -/
def fallbackRunStore : Store := (receiveTask seededStore scenarioInput none none).2

/-- The single assignment row of `fallbackRunStore`, as the pending
sweep would read it. -/
def scenarioAssign : AssignRow := (fallbackRunStore.assignments.head?).getD arbAssign

/-- The task row of `fallbackRunStore`. -/
def scenarioTaskRow : TaskRow := (fallbackRunStore.tasks.head?).getD arbTask

/-- C1 scenario: processing the fallback assignment when the
decomposition reply parses as JSON but has no `tasks` array, so
`createWorkBots` throws and the catch path runs. -/
def loadLeakStore : Store :=
  (processAssignment fallbackRunStore codeAgentCtx scenarioAssign
    (AnalysisResp.parsed { tasks := none, strategy := "s" })
    fun _ => BotExec.ran true "ok").2

/-- Successful processing of the fallback assignment (decomposition
falls back, the single bot runs fine). -/
def completedRunStore : Store :=
  (processAssignment fallbackRunStore codeAgentCtx scenarioAssign
    (AnalysisResp.apiFail "down") fun _ => BotExec.ran true "ok").2

/-- C10 scenario: the single bot's executor call fails, so
`executeWorkBot` returns `{success:false, error}` without throwing. -/
def failedCallStore : Store :=
  (processAssignment fallbackRunStore codeAgentCtx scenarioAssign
    (AnalysisResp.apiFail "down") fun _ => BotExec.ran false "API error").2

/-- A plan with one work package of four elements for `sub-ai-code`. -/
def fourElemPlan : Plan :=
  { overview := "o",
    workPackages := [{ wpId := "wp-1", name := "Build", assignedTo := "sub-ai-code",
                       elements := ["e1", "e2", "e3", "e4"] }] }

/-- Store after delegating the four-element plan. -/
def fourBotBase : Store := (receiveTask seededStore scenarioInput none (some fourElemPlan)).2

def fourBotAssign : AssignRow := (fourBotBase.assignments.head?).getD arbAssign

/-- C2 scenario: four bots, the first three succeed, the fourth one's
processing throws. -/
def fourBotStore : Store :=
  (processAssignment fourBotBase codeAgentCtx fourBotAssign
    (AnalysisResp.apiFail "down")
    fun i => if i < 3 then BotExec.ran true "ok" else BotExec.thrown "boom").2

/-- A plan with one work package of two elements for `sub-ai-code`. -/
def twoElemPlan : Plan :=
  { overview := "o",
    workPackages := [{ wpId := "wp-1", name := "B", assignedTo := "sub-ai-code",
                       elements := ["e1", "e2"] }] }

def isolationBase : Store := (receiveTask seededStore scenarioInput none (some twoElemPlan)).2

def isolationAssign : AssignRow := (isolationBase.assignments.head?).getD arbAssign

/-- C10 isolation scenario: the first bot's processing throws, the
second bot still executes. -/
def isolationStore : Store :=
  (processAssignment isolationBase codeAgentCtx isolationAssign
    (AnalysisResp.apiFail "down")
    fun i => if i = 0 then BotExec.thrown "store down" else BotExec.ran true "done").2

/-- The plan of the C6 scenario: three work packages, the second of
which names an agent id that is not in the registry. -/
def unknownAgentPlan : Plan :=
  { overview := "o",
    workPackages :=
      [{ wpId := "wp-1", name := "A", assignedTo := "sub-ai-code", elements := ["x"] },
       { wpId := "wp-2", name := "B", assignedTo := "sub-ai-ghost", elements := ["y"] },
       { wpId := "wp-3", name := "C", assignedTo := "sub-ai-testing", elements := ["z"] }] }

/-- C6 scenario store. -/
def unknownAgentStore : Store :=
  (receiveTask seededStore scenarioInput none (some unknownAgentPlan)).2

/-! ## Generic lemmas about the row-list combinators -/

theorem find?_map_update {α : Type} (l : List α) (P : α → Prop) [DecidablePred P]
    (f : α → α) (hf : ∀ x, P x → P (f x)) :
    (l.map fun x => if P x then f x else x).find? (fun x => decide (P x)) =
      (l.find? fun x => decide (P x)).map f := by
  induction l with
  | nil => rfl
  | cons x xs ih =>
    by_cases hx : P x
    · simp [hx, hf x hx]
    · simp [hx, ih]

theorem any_map_update {α : Type} (l : List α) (P Q : α → Prop) [DecidablePred P]
    [DecidablePred Q] (f : α → α) (hf : ∀ x, Q (f x) ↔ Q x) :
    (l.map fun x => if P x then f x else x).any (fun x => decide (Q x)) =
      l.any (fun x => decide (Q x)) := by
  induction l with
  | nil => rfl
  | cons x xs ih =>
    by_cases hx : P x
    · simp [hx, hf, ih]
    · simp [hx, ih]

/-! ## Frame lemmas: which tables each operation leaves untouched -/

theorem agents_addProgressUpdate (s : Store) (tid : Nat) (st sid msg : String)
    (p : Option Int) : (addProgressUpdate s tid st sid msg p).agents = s.agents := rfl

theorem agents_updateTaskRows (s : Store) (k : Nat) (f : TaskRow → TaskRow) :
    (updateTaskRows s k f).agents = s.agents := rfl

theorem agents_updateAssignRows (s : Store) (k : Nat) (f : AssignRow → AssignRow) :
    (updateAssignRows s k f).agents = s.agents := rfl

theorem agents_updateBotRows (s : Store) (k : String) (f : BotRow → BotRow) :
    (updateBotRows s k f).agents = s.agents := rfl

theorem agents_updateAssignmentStatus (s : Store) (k : Nat) (st : String) :
    (updateAssignmentStatus s k st).agents = s.agents := by
  simp only [updateAssignmentStatus, updateAssignRows]
  split <;> rfl

theorem agents_execLoop (a : AssignRow) (exec : Nat → BotExec) :
    ∀ (bots : List BotHandle) (i : Nat) (s : Store),
      (execLoop s a exec bots i).agents = s.agents := by
  intro bots
  induction bots with
  | nil => intro i s; rfl
  | cons b rest ih =>
    intro i s
    cases hx : exec i <;> simp only [execLoop, hx] <;> exact ih (i + 1) _

theorem agents_executeWorkBots (s : Store) (bots : List BotHandle) (a : AssignRow)
    (exec : Nat → BotExec) : (executeWorkBots s bots a exec).agents = s.agents := by
  simp only [executeWorkBots, agents_updateAssignRows]
  exact agents_execLoop a exec bots 0 s

theorem agents_createBotsLoop (agent : AgentCtx) (assignId : Nat) :
    ∀ (specs : List TaskSpec) (s : Store),
      (createBotsLoop s agent assignId specs).2.agents = s.agents := by
  intro specs
  induction specs with
  | nil => intro s; rfl
  | cons spec rest ih =>
    intro s
    simp only [createBotsLoop]
    split
    · rfl
    · split <;> exact ih _

theorem agents_createWorkBots (s : Store) (agent : AgentCtx) (a : AssignRow)
    (analysis : Analysis) : (createWorkBots s agent a analysis).2.agents = s.agents := by
  simp only [createWorkBots]
  cases analysis.tasks with
  | none => rfl
  | some specs => exact agents_createBotsLoop agent a.id _ s

theorem assignments_execLoop (a : AssignRow) (exec : Nat → BotExec) :
    ∀ (bots : List BotHandle) (i : Nat) (s : Store),
      (execLoop s a exec bots i).assignments = s.assignments := by
  intro bots
  induction bots with
  | nil => intro i s; rfl
  | cons b rest ih =>
    intro i s
    cases hx : exec i <;> simp only [execLoop, hx] <;> exact ih (i + 1) _

theorem assignments_createBotsLoop (agent : AgentCtx) (assignId : Nat) :
    ∀ (specs : List TaskSpec) (s : Store),
      (createBotsLoop s agent assignId specs).2.assignments = s.assignments := by
  intro specs
  induction specs with
  | nil => intro s; rfl
  | cons spec rest ih =>
    intro s
    simp only [createBotsLoop]
    split
    · rfl
    · split <;> exact ih _

theorem assignments_createWorkBots (s : Store) (agent : AgentCtx) (a : AssignRow)
    (analysis : Analysis) :
    (createWorkBots s agent a analysis).2.assignments = s.assignments := by
  simp only [createWorkBots]
  cases analysis.tasks with
  | none => rfl
  | some specs => exact assignments_createBotsLoop agent a.id _ s

theorem assignments_addProgressUpdate (s : Store) (tid : Nat) (st sid msg : String)
    (p : Option Int) : (addProgressUpdate s tid st sid msg p).assignments = s.assignments := rfl

theorem assignments_updateAgentRows (s : Store) (k : Nat) (f : AgentRow → AgentRow) :
    (updateAgentRows s k f).assignments = s.assignments := rfl

theorem assignments_updateTaskRows (s : Store) (k : Nat) (f : TaskRow → TaskRow) :
    (updateTaskRows s k f).assignments = s.assignments := rfl

theorem assignments_updateBotRows (s : Store) (k : String) (f : BotRow → BotRow) :
    (updateBotRows s k f).assignments = s.assignments := rfl

/-! ## Observation lemmas -/

theorem agentAny_updateAgentRows (s : Store) (k : Nat) (x : String)
    (f : AgentRow → AgentRow) (hf : ∀ g, (f g).agent_id = g.agent_id) :
    ((updateAgentRows s k f).agents.any fun g => g.agent_id = x) =
      (s.agents.any fun g => g.agent_id = x) := by
  simp only [updateAgentRows]
  exact any_map_update s.agents (fun g => g.id = k) (fun g => g.agent_id = x) f
    (fun g => by simp [hf g])

theorem assignAny_updateAssignRows (s : Store) (j k : Nat) (f : AssignRow → AssignRow)
    (hid : ∀ r, (f r).id = r.id) :
    ((updateAssignRows s j f).assignments.any fun r => r.id = k) =
      (s.assignments.any fun r => r.id = k) := by
  simp only [updateAssignRows]
  exact any_map_update s.assignments (fun r => r.id = j) (fun r => r.id = k) f
    (fun r => by simp [hid r])

theorem assignStatusOf_updateAssignRows (s : Store) (k : Nat) (f : AssignRow → AssignRow)
    (hid : ∀ r, (f r).id = r.id) :
    assignStatusOf (updateAssignRows s k f) k =
      (s.assignments.find? fun r => r.id = k).map fun r => (f r).status := by
  simp only [assignStatusOf, updateAssignRows]
  rw [find?_map_update s.assignments (fun r => r.id = k) f
    (fun r hr => by simp only [] at hr ⊢; rw [hid r]; exact hr)]
  rw [Option.map_map]
  rfl

theorem find?_of_any {α : Type} (l : List α) (P : α → Prop) [DecidablePred P]
    (h : (l.any fun x => decide (P x)) = true) :
    ∃ x, (l.find? fun x => decide (P x)) = some x := by
  induction l with
  | nil => simp at h
  | cons x xs ih =>
    by_cases hx : P x
    · exact ⟨x, by simp [List.find?_cons_of_pos, hx]⟩
    · have h2 : (xs.any fun x => decide (P x)) = true := by simpa [hx] using h
      rcases ih h2 with ⟨y, hy⟩
      exact ⟨y, by rw [List.find?_cons_of_neg _ (by simpa using hx)]; exact hy⟩

theorem assignStatusOf_updateAssignmentStatus (s : Store) (k : Nat) (st : String)
    (h : (s.assignments.any fun r => r.id = k) = true) :
    assignStatusOf (updateAssignmentStatus s k st) k = some st := by
  have hmid : ∀ (s2 : Store), (s2.assignments.any fun r => r.id = k) = true →
      assignStatusOf (updateAssignRows s2 k fun r => { r with status := st }) k = some st := by
    intro s2 h2
    rw [assignStatusOf_updateAssignRows s2 k (fun r => { r with status := st })
      (fun r => rfl)]
    rcases find?_of_any s2.assignments (fun r => r.id = k) h2 with ⟨r, hr⟩
    rw [hr]
    rfl
  simp only [updateAssignmentStatus]
  split
  · exact hmid _ (by
      rw [assignAny_updateAssignRows s k k (fun r => { r with started_at := some s.clock })
        (fun r => rfl)]
      exact h)
  · exact hmid _ h

/-! ## Claims -/

/-- C4: `receiveTask` fails when the required fields `title` or
`userId` are missing from the input — the unchecked `undefined` reaches
the insert's parameter binding, which throws before any row is written;
the catch surfaces the error to the caller as a failure envelope, and
the store (in particular the task table) is unchanged. -/
theorem C4_missing_required_fields (s : Store) (input : TaskInput)
    (intentResp : Option Understanding) (planResp : Option Plan)
    (h : input.title = none ∨ input.userId = none) :
    (receiveTask s input intentResp planResp).1.success = false ∧
    (receiveTask s input intentResp planResp).1.error = some bindErrMsg ∧
    (receiveTask s input intentResp planResp).2 = s := by
  have hct : createTask s input = (Except.error bindErrMsg, s) := by
    rcases h with h | h
    · cases hu : input.userId <;> simp [createTask, h, hu]
    · simp [createTask, h]
  refine ⟨?_, ?_, ?_⟩ <;> simp [receiveTask, hct]

/-- Witness for C4 at a concrete input (missing `title`). -/
theorem C4_missing_required_fields_witness :
    (receiveTask seededStore
        { userId := some 1, title := none, description := none, priority := none }
        none none).1.success = false ∧
    (receiveTask seededStore
        { userId := some 1, title := none, description := none, priority := none }
        none none).2 = seededStore := by
  have h := C4_missing_required_fields seededStore
    { userId := some 1, title := none, description := none, priority := none }
    none none (Or.inl rfl)
  exact ⟨h.1, h.2.2⟩

/-- C5: with every external reasoning call failing, `receiveTask` on
the seeded store still returns a success envelope, the returned
understanding is the hard-coded fallback
`{primaryIntent: description, complexity: Moderate, requiredExpertise:
[General]}`, exactly one fallback assignment is created (from the
single default work package, for `sub-ai-code`), and the task's status
ends at `in-progress` — not `pending`, not `completed`. -/
theorem C5_all_external_calls_fail :
    (receiveTask seededStore scenarioInput none none).1.success = true ∧
    (receiveTask seededStore scenarioInput none none).1.understanding =
      some { primaryIntent := some "Build a REST API", complexity := "Moderate",
             requiredExpertise := ["General"] } ∧
    fallbackRunStore.assignments.length = 1 ∧
    (fallbackRunStore.assignments.map fun a => (a.agent_id, a.assigned_elements)) =
      [(1, ElementsCol.arr ["Main implementation"])] ∧
    taskStatusOf fallbackRunStore 1 = some "in-progress" := by
  refine ⟨rfl, rfl, rfl, rfl, rfl⟩

/-- C6: a work package naming an unknown agent id is dropped without
aborting the rest of the plan — across the delegation loop the number
of assignment rows created equals the number of work packages whose
agent resolves; in the three-package scenario with an unknown second
agent, exactly two assignments are created and each resolved agent's
load is incremented. -/
theorem C6_unknown_agent_dropped :
    (∀ (s : Store) (t : Nat) (wps : List WorkPackage) (acc : List AssignmentSummary),
      (delegateLoop s t wps acc).2.assignments.length =
        s.assignments.length +
          (wps.filter fun wp => s.agents.any fun g => g.agent_id = wp.assignedTo).length) ∧
    unknownAgentStore.assignments.length = 2 ∧
    agentLoadOf unknownAgentStore 1 = some 1 ∧
    agentLoadOf unknownAgentStore 3 = some 1 ∧
    ((receiveTask seededStore scenarioInput none (some unknownAgentPlan)).1.assignments.map
      fun l => l.map fun x => x.agentName) = some ["Code Architect", "Quality Assurance"] := by
  refine ⟨?_, rfl, rfl, rfl, rfl⟩
  intro s t wps
  induction wps generalizing s with
  | nil => intro acc; simp [delegateLoop]
  | cons wp rest ih =>
    intro acc
    simp only [delegateLoop]
    cases hf : s.agents.find? fun g => g.agent_id = wp.assignedTo with
    | none =>
      have hany : (s.agents.any fun g => g.agent_id = wp.assignedTo) = false := by
        rw [List.any_eq_false]
        intro g hg
        simpa using List.find?_eq_none.mp hf g hg
      rw [ih]
      simp [List.filter_cons, hany]
    | some ag =>
      have hmem := List.mem_of_find?_eq_some hf
      have hp := List.find?_some hf
      have hany : (s.agents.any fun g => g.agent_id = wp.assignedTo) = true :=
        List.any_eq_true.mpr ⟨ag, hmem, hp⟩
      rw [ih]
      simp only [agents_addProgressUpdate, assignments_addProgressUpdate,
        assignments_updateAgentRows]
      rw [List.filter_congr fun x _ =>
        agentAny_updateAgentRows _ ag.id x.assignedTo
          (fun a2 => { a2 with current_load := a2.current_load + 1 }) (fun g => rfl)]
      simp [List.filter_cons, hany]
      omega

theorem createBotsLoop_ok (agent : AgentCtx) (aid : Nat) :
    ∀ (specs : List TaskSpec) (s : Store),
      (s.agents.any fun g => g.agent_id = agent.agentId) = true →
      (createBotsLoop s agent aid specs).1 =
        Except.ok (expectedHandles s.uuid specs) := by
  intro specs
  induction specs with
  | nil => intro s _; rfl
  | cons spec rest ih =>
    intro s h
    simp only [createBotsLoop]
    rcases find?_of_any s.agents (fun g => g.agent_id = agent.agentId) h with ⟨ag, hf⟩
    simp only [hf]
    have h1 := ih
      { s with
          workBots := s.workBots ++
            [{ id := s.workBots.length + 1, bot_id := "bot-" ++ toString s.uuid,
               assignment_id := aid, agent_id := ag.id, bot_type := spec.botType,
               task_description := spec.description, status := "created",
               result := none, started_at := none, completed_at := none }]
          uuid := s.uuid + 1 } h
    rw [h1]
    rfl

theorem createBotsLoop_ok_length (agent : AgentCtx) (aid : Nat) :
    ∀ (specs : List TaskSpec) (s : Store) (handles : List BotHandle),
      (createBotsLoop s agent aid specs).1 = Except.ok handles →
      handles.length = specs.length := by
  intro specs
  induction specs with
  | nil =>
    intro s handles h
    simp only [createBotsLoop] at h
    injection h with h2
    simp [← h2]
  | cons spec rest ih =>
    intro s handles h
    simp only [createBotsLoop] at h
    split at h
    · simp at h
    · split at h
      · next hs heq =>
        injection h with h2
        simp [← h2, ih _ _ heq]
      · simp at h

theorem expectedHandles_length : ∀ (u : Nat) (specs : List TaskSpec),
    (expectedHandles u specs).length = specs.length := by
  intro u specs
  induction specs generalizing u with
  | nil => rfl
  | cons spec rest ih => simp [expectedHandles, ih]

theorem expectedHandles_descriptions : ∀ (u : Nat) (specs : List TaskSpec),
    ((expectedHandles u specs).map fun h => h.description) =
      specs.map fun t => t.description := by
  intro u specs
  induction specs generalizing u with
  | nil => rfl
  | cons spec rest ih => simp [expectedHandles, ih]

theorem expectedHandles_types : ∀ (u : Nat) (specs : List TaskSpec),
    ((expectedHandles u specs).map fun h => h.type) = specs.map fun t => t.botType := by
  intro u specs
  induction specs generalizing u with
  | nil => rfl
  | cons spec rest ih => simp [expectedHandles, ih]

/-- C7: when the decomposition call fails, the coordinator falls back
deterministically — the created work bots number `min 5
len(assignedElements)`, one per element in order with the element text
as description, all of type `general`; and for every decomposition
result the bot list is truncated to at most 5 specs. -/
theorem C7_decomposition_fallback_and_cap (s : Store) (agent : AgentCtx) (a : AssignRow)
    (elements : List String) (msg : String)
    (hel : a.assigned_elements = ElementsCol.arr elements)
    (hag : (s.agents.any fun g => g.agent_id = agent.agentId) = true) :
    (∃ analysis, analyzeAssignment a (AnalysisResp.apiFail msg) = Except.ok analysis ∧
      ∃ handles, (createWorkBots s agent a analysis).1 = Except.ok handles ∧
        handles.length = min maxWorkBots elements.length ∧
        (handles.map fun h => h.description) = elements.take maxWorkBots ∧
        ∀ h2 ∈ handles, h2.type = "general") ∧
    (∀ (analysis : Analysis) (handles : List BotHandle),
      (createWorkBots s agent a analysis).1 = Except.ok handles →
      handles.length ≤ maxWorkBots) := by
  constructor
  · refine ⟨{ tasks := some (elements.map fallbackSpec),
              strategy := "Sequential execution" }, ?_, ?_⟩
    · simp [analyzeAssignment, hel]
    · refine ⟨expectedHandles s.uuid ((elements.map fallbackSpec).take maxWorkBots),
        ?_, ?_, ?_, ?_⟩
      · simpa [createWorkBots] using createBotsLoop_ok agent a.id
          ((elements.map fallbackSpec).take maxWorkBots) s hag
      · rw [expectedHandles_length]
        simp
      · rw [expectedHandles_descriptions, ← List.map_take, List.map_map]
        have h3 : ((fun t : TaskSpec => t.description) ∘ fallbackSpec) = fun e => e := rfl
        rw [h3]
        simp
      · intro h2 hmem
        have hmap := expectedHandles_types s.uuid ((elements.map fallbackSpec).take maxWorkBots)
        have hmem2 : h2.type ∈ ((elements.map fallbackSpec).take maxWorkBots).map
            fun t => t.botType := by
          rw [← hmap]
          exact List.mem_map_of_mem _ hmem
        rcases List.mem_map.mp hmem2 with ⟨t, ht, hty⟩
        have ht2 : t ∈ elements.map fallbackSpec := List.mem_of_mem_take ht
        rcases List.mem_map.mp ht2 with ⟨e, _, hfe⟩
        rw [← hty, ← hfe]
        rfl
  · intro analysis handles h
    cases htasks : analysis.tasks with
    | none => simp [createWorkBots, htasks] at h
    | some specs =>
      simp only [createWorkBots, htasks] at h
      rw [createBotsLoop_ok_length agent a.id (specs.take maxWorkBots) s handles h]
      exact List.length_take_le _ _

/-- Witness for C7: the fallback assignment of the concrete scenario,
with a single element. -/
theorem C7_decomposition_fallback_and_cap_witness :
    (∃ analysis, analyzeAssignment scenarioAssign (AnalysisResp.apiFail "down") =
        Except.ok analysis ∧
      ∃ handles,
        (createWorkBots fallbackRunStore codeAgentCtx scenarioAssign analysis).1 =
          Except.ok handles ∧
        handles.length = min maxWorkBots ["Main implementation"].length ∧
        (handles.map fun h => h.description) = ["Main implementation"].take maxWorkBots ∧
        ∀ h2 ∈ handles, h2.type = "general") ∧
    (∀ (analysis : Analysis) (handles : List BotHandle),
      (createWorkBots fallbackRunStore codeAgentCtx scenarioAssign analysis).1 =
        Except.ok handles →
      handles.length ≤ maxWorkBots) :=
  C7_decomposition_fallback_and_cap fallbackRunStore codeAgentCtx scenarioAssign
    ["Main implementation"] "down" rfl rfl

/-- C8: `getTaskStatus` of an unknown external task id is the
structured value `{error: Task not found}` (the function is total — it
cannot throw); for a known id it returns the task joined with its
assignments (each with the agent's name and specialization) and its
progress updates ordered newest first (a reordering of exactly the
task's updates, sorted by descending `created_at`). -/
theorem C8_getTaskStatus :
    (∀ (s : Store) (tid : String),
      (s.tasks.find? fun t => t.task_id = tid) = none →
      getTaskStatus s tid = StatusResult.err "Task not found") ∧
    (∀ (s : Store) (tid : String) (t : TaskRow),
      (s.tasks.find? fun t2 => t2.task_id = tid) = some t →
      ∃ us, getTaskStatus s tid = StatusResult.ok t (joinAssignments s t.id) us ∧
        List.Sorted newerEq us ∧
        us.Perm (s.updates.filter fun u => u.task_id = t.id)) := by
  constructor
  · intro s tid h
    simp [getTaskStatus, h]
  · intro s tid t h
    refine ⟨sortUpdatesDesc (s.updates.filter fun u => u.task_id = t.id), ?_, ?_, ?_⟩
    · simp [getTaskStatus, h]
    · exact List.sorted_insertionSort newerEq _
    · exact List.perm_insertionSort newerEq _

/-- Witness for C8: the unknown-id case on the seeded store and the
known-id case on the concrete scenario store. -/
theorem C8_getTaskStatus_witness :
    getTaskStatus seededStore "nonexistent" = StatusResult.err "Task not found" ∧
    ∃ us, getTaskStatus fallbackRunStore "task-0" =
        StatusResult.ok scenarioTaskRow
          (joinAssignments fallbackRunStore scenarioTaskRow.id) us ∧
      List.Sorted newerEq us ∧
      us.Perm (fallbackRunStore.updates.filter fun u => u.task_id = scenarioTaskRow.id) :=
  ⟨C8_getTaskStatus.1 seededStore "nonexistent" rfl,
   C8_getTaskStatus.2 fallbackRunStore "task-0" scenarioTaskRow rfl⟩

theorem assignStatusOf_addProgressUpdate (s : Store) (tid : Nat) (st sid msg : String)
    (p : Option Int) (k : Nat) :
    assignStatusOf (addProgressUpdate s tid st sid msg p) k = assignStatusOf s k := rfl

theorem assignStatusOf_updateAgentRows (s : Store) (j : Nat) (f : AgentRow → AgentRow)
    (k : Nat) : assignStatusOf (updateAgentRows s j f) k = assignStatusOf s k := rfl

theorem assignStatusOf_set_status (s : Store) (k : Nat) (st : String) (ca : Option Nat) :
    assignStatusOf
        (updateAssignRows s k fun r => { r with status := st, completed_at := ca }) k =
      (s.assignments.find? fun r => r.id = k).map fun _ => st := by
  simp only [assignStatusOf, updateAssignRows]
  rw [find?_map_update s.assignments (fun r => r.id = k)
    (fun r => { r with status := st, completed_at := ca }) (fun r hr => hr)]
  cases s.assignments.find? fun r => r.id = k <;> rfl

/-- The terminal-status write of `reportToAtlantis`: the assignment's
status becomes `completed` when every bot row of the assignment counts
as completed, else `partial`. -/
theorem report_assignStatus (s : Store) (agent : AgentCtx) (a : AssignRow)
    (hmem : (s.assignments.any fun r => r.id = a.id) = true)
    (hag : (s.agents.any fun g => g.agent_id = agent.agentId) = true) :
    assignStatusOf (reportToAtlantis s agent a).2 a.id =
      some (if countCompletedBots s a.id =
            (s.workBots.filter fun b => b.assignment_id = a.id).length
        then "completed" else "partial") := by
  have hcount : ((s.workBots.filter fun b => b.assignment_id = a.id).filter
      fun b => b.status = "completed").length = countCompletedBots s a.id := by
    rw [List.filter_filter]
    unfold countCompletedBots
    congr 1
    exact List.filter_congr fun b _ => Bool.and_comm _ _
  simp only [reportToAtlantis, agents_updateAssignRows]
  rcases find?_of_any s.agents (fun g => g.agent_id = agent.agentId) hag with ⟨ag, hf⟩
  simp only [hf]
  rw [assignStatusOf_addProgressUpdate, assignStatusOf_updateAgentRows,
    assignStatusOf_set_status]
  rcases find?_of_any s.assignments (fun r => r.id = a.id) hmem with ⟨r, hr⟩
  rw [hr]
  simp only [Option.map_some']
  rw [hcount]

/-- C2: for an assignment whose work bots have all been executed, the
reporting step decides the terminal status by the rule `completed` iff
the completed-bot count equals the bot total, else `partial`; in the
concrete four-bot scenario where exactly three bots succeed, the
assignment ends `partial` with progress 75. -/
theorem C2_terminal_status_rule :
    (∀ (s : Store) (agent : AgentCtx) (a : AssignRow),
      (s.assignments.any fun r => r.id = a.id) = true →
      (s.agents.any fun g => g.agent_id = agent.agentId) = true →
      assignStatusOf (reportToAtlantis s agent a).2 a.id =
        some (if countCompletedBots s a.id =
              (s.workBots.filter fun b => b.assignment_id = a.id).length
          then "completed" else "partial")) ∧
    assignStatusOf fourBotStore fourBotAssign.id = some "partial" ∧
    assignProgressOf fourBotStore fourBotAssign.id = some (some 75) :=
  ⟨fun s agent a hmem hag => report_assignStatus s agent a hmem hag, rfl, rfl⟩

theorem workBots_updateAssignRows (s : Store) (k : Nat) (f : AssignRow → AssignRow) :
    (updateAssignRows s k f).workBots = s.workBots := rfl

theorem workBots_updateAssignmentStatus (s : Store) (k : Nat) (st : String) :
    (updateAssignmentStatus s k st).workBots = s.workBots := by
  simp only [updateAssignmentStatus, updateAssignRows]
  split <;> rfl

theorem assignments_updateAssignmentStatus_any (s : Store) (j : Nat) (st : String)
    (k : Nat) :
    ((updateAssignmentStatus s j st).assignments.any fun r => r.id = k) =
      (s.assignments.any fun r => r.id = k) := by
  simp only [updateAssignmentStatus]
  split
  · rw [assignAny_updateAssignRows _ j k (fun r => { r with status := st }) (fun r => rfl),
      assignAny_updateAssignRows _ j k (fun r => { r with started_at := some s.clock })
        (fun r => rfl)]
  · rw [assignAny_updateAssignRows _ j k (fun r => { r with status := st }) (fun r => rfl)]

theorem assignAny_set_progress (s : Store) (j k : Nat) (p : Option Int) :
    ((updateAssignRows s j fun r => { r with progress := p }).assignments.any
      fun r => r.id = k) = (s.assignments.any fun r => r.id = k) :=
  assignAny_updateAssignRows s j k (fun r => { r with progress := p }) (fun _ => rfl)

theorem assignAny_executeWorkBots (s : Store) (bots : List BotHandle) (a : AssignRow)
    (exec : Nat → BotExec) (k : Nat) :
    ((executeWorkBots s bots a exec).assignments.any fun r => r.id = k) =
      (s.assignments.any fun r => r.id = k) := by
  simp only [executeWorkBots]
  rw [assignAny_set_progress]
  rw [assignments_execLoop]

theorem assignAny_reportToAtlantis (s : Store) (agent : AgentCtx) (a : AssignRow)
    (k : Nat) :
    ((reportToAtlantis s agent a).2.assignments.any fun r => r.id = k) =
      (s.assignments.any fun r => r.id = k) := by
  simp only [reportToAtlantis, agents_updateAssignRows]
  cases hf : s.agents.find? fun g => g.agent_id = agent.agentId with
  | none =>
    simp only [hf]
    exact assignAny_updateAssignRows _ a.id k _ (fun r => rfl)
  | some ag =>
    simp only [hf, assignments_addProgressUpdate, assignments_updateAgentRows]
    exact assignAny_updateAssignRows _ a.id k _ (fun r => rfl)

theorem report_ok_of_agent (s : Store) (agent : AgentCtx) (a : AssignRow)
    (hag : (s.agents.any fun g => g.agent_id = agent.agentId) = true) :
    (reportToAtlantis s agent a).1 = Except.ok () := by
  simp only [reportToAtlantis, agents_updateAssignRows]
  rcases find?_of_any s.agents (fun g => g.agent_id = agent.agentId) hag with ⟨ag, hf⟩
  simp only [hf]

theorem report_any_of_ok (s : Store) (agent : AgentCtx) (a : AssignRow) (u : Unit)
    (h : (reportToAtlantis s agent a).1 = Except.ok u) :
    (s.agents.any fun g => g.agent_id = agent.agentId) = true := by
  simp only [reportToAtlantis, agents_updateAssignRows] at h
  cases hf : s.agents.find? fun g => g.agent_id = agent.agentId with
  | none => rw [hf] at h; simp at h
  | some ag =>
    have hmem := List.mem_of_find?_eq_some hf
    have hp := List.find?_some hf
    exact List.any_eq_true.mpr ⟨ag, hmem, hp⟩

theorem assignProgressOf_set_progress (s : Store) (k : Nat) (p : Option Int) :
    assignProgressOf (updateAssignRows s k fun r => { r with progress := p }) k =
      (s.assignments.find? fun r => r.id = k).map fun _ => p := by
  simp only [assignProgressOf, updateAssignRows]
  rw [find?_map_update s.assignments (fun r => r.id = k)
    (fun r => { r with progress := p }) (fun r hr => hr)]
  cases s.assignments.find? fun r => r.id = k <;> rfl

theorem assignProgressOf_reportToAtlantis (s : Store) (agent : AgentCtx) (a : AssignRow) :
    assignProgressOf (reportToAtlantis s agent a).2 a.id = assignProgressOf s a.id := by
  have hgen : ∀ (s2 : Store) (st : String) (ca : Option Nat),
      assignProgressOf (updateAssignRows s2 a.id fun r =>
        { r with status := st, completed_at := ca }) a.id = assignProgressOf s2 a.id := by
    intro s2 st ca
    simp only [assignProgressOf, updateAssignRows]
    rw [find?_map_update s2.assignments (fun r => r.id = a.id)
      (fun r => { r with status := st, completed_at := ca }) (fun r hr => hr)]
    cases s2.assignments.find? fun r => r.id = a.id <;> rfl
  simp only [reportToAtlantis, agents_updateAssignRows]
  cases hf : s.agents.find? fun g => g.agent_id = agent.agentId with
  | none =>
    simp only [hf]
    exact hgen s _ _
  | some ag =>
    simp only [hf]
    exact hgen s _ _

theorem countCompletedBots_eq_zero_of_none (s : Store) (k : Nat)
    (h : (s.workBots.filter fun b => b.assignment_id = k) = []) :
    countCompletedBots s k = 0 := by
  unfold countCompletedBots
  have h2 : ((s.workBots.filter fun b => b.assignment_id = k).filter
      fun b => b.status = "completed").length = 0 := by rw [h]; rfl
  rw [List.filter_filter] at h2
  rw [← h2]
  congr 1
  exact List.filter_congr fun b _ => Bool.and_comm _ _

/-- Witness for C2's general rule at a concrete input. -/
theorem C2_terminal_status_rule_witness :
    assignStatusOf (reportToAtlantis fallbackRunStore codeAgentCtx scenarioAssign).2
        scenarioAssign.id =
      some (if countCompletedBots fallbackRunStore scenarioAssign.id =
            (fallbackRunStore.workBots.filter
              fun b => b.assignment_id = scenarioAssign.id).length
        then "completed" else "partial") :=
  C2_terminal_status_rule.1 fallbackRunStore codeAgentCtx scenarioAssign rfl rfl

/-- C9: when analysis yields an empty task list, zero work bots are
created, the progress computation divides the completed-bot count by
zero bots without a guard (JS `0/0 = NaN`, stored as SQL NULL —
modelled as `none`), and `reportToAtlantis` still observes
`completed == total` (`0 == 0`) and marks the assignment `completed`
even though no bot ever ran. -/
theorem C9_zero_bots_completed (s : Store) (agent : AgentCtx) (a : AssignRow)
    (exec : Nat → BotExec) (strategy : String) (elements : List String)
    (hel : a.assigned_elements = ElementsCol.arr elements)
    (hmem : (s.assignments.any fun r => r.id = a.id) = true)
    (hag : (s.agents.any fun g => g.agent_id = agent.agentId) = true)
    (hnob : (s.workBots.filter fun b => b.assignment_id = a.id) = []) :
    (processAssignment s agent a
        (AnalysisResp.parsed { tasks := some [], strategy := strategy }) exec).1 =
      { success := true, workBots := 0, error := none } ∧
    assignProgressOf (processAssignment s agent a
        (AnalysisResp.parsed { tasks := some [], strategy := strategy }) exec).2 a.id =
      some none ∧
    assignStatusOf (processAssignment s agent a
        (AnalysisResp.parsed { tasks := some [], strategy := strategy }) exec).2 a.id =
      some "completed" := by
  have han : analyzeAssignment a
      (AnalysisResp.parsed { tasks := some [], strategy := strategy }) =
      Except.ok { tasks := some [], strategy := strategy } := by
    simp [analyzeAssignment, hel]
  have hcw : ∀ s2 : Store,
      createWorkBots s2 agent a { tasks := some [], strategy := strategy } =
        (Except.ok [], s2) := by
    intro s2
    simp [createWorkBots, createBotsLoop]
  have hex : ∀ s2 : Store, executeWorkBots s2 [] a exec =
      updateAssignRows s2 a.id fun r => { r with progress := none } := by
    intro s2
    simp [executeWorkBots, execLoop]
  have hagS2 : ((updateAssignRows (updateAssignmentStatus s a.id "in-progress") a.id
      fun r => { r with progress := none }).agents.any
        fun g => g.agent_id = agent.agentId) = true := by
    rw [agents_updateAssignRows, agents_updateAssignmentStatus]
    exact hag
  have hmemS2 : ((updateAssignRows (updateAssignmentStatus s a.id "in-progress") a.id
      fun r => { r with progress := none }).assignments.any
        fun r => r.id = a.id) = true := by
    rw [assignAny_set_progress, assignments_updateAssignmentStatus_any]
    exact hmem
  have hwbS2 : (updateAssignRows (updateAssignmentStatus s a.id "in-progress") a.id
      fun r => { r with progress := none }).workBots = s.workBots := by
    rw [workBots_updateAssignRows, workBots_updateAssignmentStatus]
  have hrep1 := report_ok_of_agent
    (updateAssignRows (updateAssignmentStatus s a.id "in-progress") a.id
      fun r => { r with progress := none }) agent a hagS2
  simp only [processAssignment, han, hcw, hex, hrep1]
  refine ⟨rfl, ?_, ?_⟩
  · rw [assignProgressOf_reportToAtlantis, assignProgressOf_set_progress]
    rcases find?_of_any _ (fun r : AssignRow => r.id = a.id)
      (by rw [assignments_updateAssignmentStatus_any]; exact hmem :
        (((updateAssignmentStatus s a.id "in-progress").assignments).any
          fun r => r.id = a.id) = true) with ⟨r, hr⟩
    rw [hr]
    rfl
  · rw [report_assignStatus _ agent a hmemS2 hagS2]
    have hcc : countCompletedBots (updateAssignRows
        (updateAssignmentStatus s a.id "in-progress") a.id
        fun r => { r with progress := none }) a.id = 0 := by
      unfold countCompletedBots
      rw [hwbS2]
      have := countCompletedBots_eq_zero_of_none s a.id hnob
      unfold countCompletedBots at this
      exact this
    rw [hcc, hwbS2, hnob]
    rfl

/-- Witness for C9 on the concrete scenario store. -/
theorem C9_zero_bots_completed_witness :
    (processAssignment fallbackRunStore codeAgentCtx scenarioAssign
        (AnalysisResp.parsed { tasks := some [], strategy := "s" })
        (fun _ => BotExec.ran true "ok")).1 =
      { success := true, workBots := 0, error := none } ∧
    assignProgressOf (processAssignment fallbackRunStore codeAgentCtx scenarioAssign
        (AnalysisResp.parsed { tasks := some [], strategy := "s" })
        (fun _ => BotExec.ran true "ok")).2 scenarioAssign.id = some none ∧
    assignStatusOf (processAssignment fallbackRunStore codeAgentCtx scenarioAssign
        (AnalysisResp.parsed { tasks := some [], strategy := "s" })
        (fun _ => BotExec.ran true "ok")).2 scenarioAssign.id = some "completed" :=
  C9_zero_bots_completed fallbackRunStore codeAgentCtx scenarioAssign
    (fun _ => BotExec.ran true "ok") "s" ["Main implementation"] rfl rfl rfl rfl

theorem report_error_agents (s : Store) (agent : AgentCtx) (a : AssignRow) (e : String)
    (h : (reportToAtlantis s agent a).1 = Except.error e) :
    (reportToAtlantis s agent a).2.agents = s.agents := by
  simp only [reportToAtlantis, agents_updateAssignRows] at h ⊢
  cases hf : s.agents.find? fun g => g.agent_id = agent.agentId with
  | none => simp only [hf]; rfl
  | some ag => rw [hf] at h; simp at h

theorem report_ok_agents (s : Store) (agent : AgentCtx) (a : AssignRow) (u : Unit)
    (h : (reportToAtlantis s agent a).1 = Except.ok u) :
    ∃ ag, (s.agents.find? fun g => g.agent_id = agent.agentId) = some ag ∧
      (reportToAtlantis s agent a).2.agents = s.agents.map fun g =>
        if g.id = ag.id then { g with current_load := g.current_load - 1 } else g := by
  simp only [reportToAtlantis, agents_updateAssignRows] at h ⊢
  cases hf : s.agents.find? fun g => g.agent_id = agent.agentId with
  | none => rw [hf] at h; simp at h
  | some ag =>
    refine ⟨ag, rfl, ?_⟩
    simp only [hf]
    rfl

/-- C1 (amended): `processAssignment` decrements the owning agent's
`current_load` exactly once — via `reportToAtlantis` — when and only
when it succeeds; on the exception path (any throw during
analysis/creation/reporting) the assignment is marked `failed` and the
agent loads are left untouched, so a failed assignment leaves
`current_load` elevated. -/
theorem C1_load_decrement (s : Store) (agent : AgentCtx) (a : AssignRow)
    (resp : AnalysisResp) (exec : Nat → BotExec) :
    ((processAssignment s agent a resp exec).1.success = true →
      ∃ ag, (s.agents.find? fun g => g.agent_id = agent.agentId) = some ag ∧
        (processAssignment s agent a resp exec).2.agents =
          s.agents.map fun g => if g.id = ag.id
            then { g with current_load := g.current_load - 1 } else g) ∧
    ((processAssignment s agent a resp exec).1.success = false →
      (processAssignment s agent a resp exec).2.agents = s.agents) := by
  simp only [processAssignment]
  split
  · constructor
    · intro h; simp at h
    · intro _
      rw [agents_updateAssignmentStatus, agents_updateAssignmentStatus]
  · split
    · constructor
      · intro h; simp at h
      · intro _
        rw [agents_updateAssignmentStatus, agents_createWorkBots,
          agents_updateAssignmentStatus]
    · split
      · next e2 heq2 =>
        constructor
        · intro h; simp at h
        · intro _
          rw [agents_updateAssignmentStatus, report_error_agents _ agent a e2 heq2,
            agents_executeWorkBots, agents_createWorkBots, agents_updateAssignmentStatus]
      · next u heq2 =>
        constructor
        · intro _
          rcases report_ok_agents _ agent a u heq2 with ⟨ag, hfind, hagents⟩
          rw [agents_executeWorkBots, agents_createWorkBots,
            agents_updateAssignmentStatus] at hfind
          refine ⟨ag, hfind, ?_⟩
          rw [hagents, agents_executeWorkBots, agents_createWorkBots,
            agents_updateAssignmentStatus]
        · intro h; simp at h

/-- Witness for C1's amended load rule: the successful concrete run
decrements the `sub-ai-code` agent's load. -/
theorem C1_load_decrement_witness :
    ∃ ag, (fallbackRunStore.agents.find?
        fun g => g.agent_id = codeAgentCtx.agentId) = some ag ∧
      (processAssignment fallbackRunStore codeAgentCtx scenarioAssign
        (AnalysisResp.apiFail "down") (fun _ => BotExec.ran true "ok")).2.agents =
        fallbackRunStore.agents.map fun g => if g.id = ag.id
          then { g with current_load := g.current_load - 1 } else g :=
  (C1_load_decrement fallbackRunStore codeAgentCtx scenarioAssign
    (AnalysisResp.apiFail "down") (fun _ => BotExec.ran true "ok")).1 rfl

/-- Counterexample to C1 as stated: in the concrete scenario the agent
has one assignment created (load 1); processing it hits an exception
(the decomposition reply parses but has no `tasks` array), the
assignment reaches the terminal outcome `failed`, yet the agent's
`current_load` is still 1, not the claimed `created − terminal = 0` —
the catch path never decrements. -/
theorem C1_load_leak_counterexample :
    fallbackRunStore.assignments.length = 1 ∧
    agentLoadOf fallbackRunStore 1 = some 1 ∧
    assignStatusOf loadLeakStore scenarioAssign.id = some "failed" ∧
    agentLoadOf loadLeakStore 1 = some 1 ∧
    agentLoadOf loadLeakStore 1 ≠ some 0 := by
  have h : agentLoadOf loadLeakStore 1 = some 1 := rfl
  refine ⟨rfl, rfl, rfl, h, ?_⟩
  rw [h]
  decide

/-- C10 (amended): the assignment reaches `failed` iff
`processAssignment` catches an exception, and once bot execution
completes the reporting step assigns only `completed` or `partial` —
in particular `completedBots = 0` with bots present still ends
`partial`, never `failed`.  Per-bot processing is isolated, but the
recorded pairs differ from the claim: a bot whose loop-body processing
throws is recorded `failed` with result `{error}` (no `success` field)
while its sibling still executes, and a bot whose executor call fails
without throwing returns `{success:false, error}` yet is recorded
`completed`. -/
theorem C10_failure_semantics :
    (∀ (s : Store) (agent : AgentCtx) (a : AssignRow) (resp : AnalysisResp)
        (exec : Nat → BotExec),
      (s.assignments.any fun r => r.id = a.id) = true →
      (((processAssignment s agent a resp exec).1.success = false →
        assignStatusOf (processAssignment s agent a resp exec).2 a.id = some "failed") ∧
       ((processAssignment s agent a resp exec).1.success = true →
        assignStatusOf (processAssignment s agent a resp exec).2 a.id = some "completed" ∨
        assignStatusOf (processAssignment s agent a resp exec).2 a.id = some "partial"))) ∧
    (∀ (s : Store) (agent : AgentCtx) (a : AssignRow),
      (s.assignments.any fun r => r.id = a.id) = true →
      (s.agents.any fun g => g.agent_id = agent.agentId) = true →
      (s.workBots.filter fun b => b.assignment_id = a.id).length ≠ 0 →
      countCompletedBots s a.id = 0 →
      assignStatusOf (reportToAtlantis s agent a).2 a.id = some "partial") ∧
    (botStatusOf isolationStore "bot-5" = some "failed" ∧
     botResultOf isolationStore "bot-5" =
       some (some (StoredResult.errOnly "store down")) ∧
     botStatusOf isolationStore "bot-6" = some "completed" ∧
     (∃ ts, botResultOf isolationStore "bot-6" =
       some (some (StoredResult.okRes "done" ts))) ∧
     assignStatusOf isolationStore isolationAssign.id = some "partial") := by
  refine ⟨?_, ?_, rfl, rfl, rfl, ⟨2, rfl⟩, rfl⟩
  · intro s agent a resp exec hmem
    simp only [processAssignment]
    split
    · constructor
      · intro _
        apply assignStatusOf_updateAssignmentStatus
        rw [assignments_updateAssignmentStatus_any]
        exact hmem
      · intro h; simp at h
    · next analysis2 heq0 =>
      have hmemCW : ((createWorkBots (updateAssignmentStatus s a.id "in-progress")
          agent a analysis2).2.assignments.any fun r => r.id = a.id) = true := by
        have h2 := assignments_createWorkBots
          (updateAssignmentStatus s a.id "in-progress") agent a analysis2
        rw [show ((createWorkBots (updateAssignmentStatus s a.id "in-progress")
            agent a analysis2).2.assignments.any fun r => r.id = a.id) =
            ((updateAssignmentStatus s a.id "in-progress").assignments.any
              fun r => r.id = a.id) from
          congrArg (fun l => l.any fun r => r.id = a.id) h2]
        rw [assignments_updateAssignmentStatus_any]
        exact hmem
      split
      · constructor
        · intro _
          exact assignStatusOf_updateAssignmentStatus _ a.id "failed" hmemCW
        · intro h; simp at h
      · next bots heq1 =>
        split
        · next e2 heq2 =>
          constructor
          · intro _
            apply assignStatusOf_updateAssignmentStatus
            rw [assignAny_reportToAtlantis, assignAny_executeWorkBots]
            exact hmemCW
          · intro h; simp at h
        · next u heq2 =>
          constructor
          · intro h; simp at h
          · intro _
            have hag3 := report_any_of_ok _ agent a u heq2
            have hmem3 : (((executeWorkBots (createWorkBots
                (updateAssignmentStatus s a.id "in-progress") agent a analysis2).2
                bots a exec).assignments).any fun r => r.id = a.id) = true := by
              rw [assignAny_executeWorkBots]
              exact hmemCW
            rw [report_assignStatus _ agent a hmem3 hag3]
            by_cases hc : countCompletedBots (executeWorkBots (createWorkBots
                (updateAssignmentStatus s a.id "in-progress") agent a analysis2).2
                bots a exec) a.id =
                ((executeWorkBots (createWorkBots (updateAssignmentStatus s a.id
                  "in-progress") agent a analysis2).2 bots a exec).workBots.filter
                  fun b => b.assignment_id = a.id).length
            · left; rw [if_pos hc]
            · right; rw [if_neg hc]
  · intro s agent a hmem hag hlen hzero
    rw [report_assignStatus s agent a hmem hag, hzero]
    rw [if_neg fun hcon => hlen hcon.symm]

/-- Witness for C10's general conjuncts: the failure branch at the
concrete load-leak run, and the all-bots-short report rule at the
post-execution store of the isolation scenario. -/
theorem C10_failure_semantics_witness :
    assignStatusOf (processAssignment fallbackRunStore codeAgentCtx scenarioAssign
      (AnalysisResp.parsed { tasks := none, strategy := "s" })
      (fun _ => BotExec.ran true "ok")).2 scenarioAssign.id = some "failed" :=
  ((C10_failure_semantics.1 fallbackRunStore codeAgentCtx scenarioAssign
    (AnalysisResp.parsed { tasks := none, strategy := "s" })
    (fun _ => BotExec.ran true "ok") rfl).1) rfl

/-- Counterexample to C10 as stated: in the concrete run the bot's
executor call fails and returns `{success:false, error}`, yet the bot
is recorded with status `completed` (not `failed`), and the assignment
ends `completed` with progress 100. -/
theorem C10_failed_bot_counterexample :
    botStatusOf failedCallStore "bot-4" = some "completed" ∧
    botResultOf failedCallStore "bot-4" =
      some (some (StoredResult.failRes "API error")) ∧
    botStatusOf failedCallStore "bot-4" ≠ some "failed" ∧
    assignStatusOf failedCallStore scenarioAssign.id = some "completed" ∧
    assignProgressOf failedCallStore scenarioAssign.id = some (some 100) := by
  have h : botStatusOf failedCallStore "bot-4" = some "completed" := rfl
  refine ⟨h, rfl, ?_, rfl, rfl⟩
  rw [h]
  decide

theorem tasksAny_addProgressUpdate (s : Store) (tid : Nat) (st sid msg : String)
    (p : Option Int) (k : Nat) :
    ((addProgressUpdate s tid st sid msg p).tasks.any fun r => r.id = k) =
      (s.tasks.any fun r => r.id = k) := rfl

theorem tasksAny_finalizeTask (s : Store) (t k : Nat) :
    ((finalizeTask s t).tasks.any fun r => r.id = k) =
      (s.tasks.any fun r => r.id = k) := by
  simp only [finalizeTask, tasksAny_addProgressUpdate, updateTaskRows]
  exact any_map_update s.tasks (fun r => r.id = t) (fun r => r.id = k)
    (fun r => { r with status := "completed", completed_at := some s.clock })
    (fun r => Iff.rfl)

theorem taskStatusOf_finalizeTask (s : Store) (t : Nat)
    (h : (s.tasks.any fun r => r.id = t) = true) :
    taskStatusOf (finalizeTask s t) t = some "completed" := by
  simp only [finalizeTask, taskStatusOf, addProgressUpdate, updateTaskRows]
  rw [find?_map_update s.tasks (fun r => r.id = t)
    (fun r => { r with status := "completed", completed_at := some s.clock })
    (fun r hr => hr)]
  rcases find?_of_any s.tasks (fun r => r.id = t) h with ⟨r, hr⟩
  rw [hr]
  rfl

theorem taskCompletedAt_finalizeTask (s : Store) (t : Nat)
    (h : (s.tasks.any fun r => r.id = t) = true) :
    ((finalizeTask s t).tasks.find? fun r => r.id = t).map (fun r => r.completed_at) =
      some (some s.clock) := by
  simp only [finalizeTask, addProgressUpdate, updateTaskRows]
  rw [find?_map_update s.tasks (fun r => r.id = t)
    (fun r => { r with status := "completed", completed_at := some s.clock })
    (fun r hr => hr)]
  rcases find?_of_any s.tasks (fun r => r.id = t) h with ⟨r, hr⟩
  rw [hr]
  rfl

theorem finalize_emits_100 (s : Store) (t : Nat) :
    ∃ u ∈ (finalizeTask s t).updates, u.task_id = t ∧
      u.progress_percentage = some 100 :=
  ⟨_, List.mem_append_right _ (List.mem_singleton_self _), rfl, rfl⟩

theorem taskAssignments_monitorProgress (s : Store) (t k : Nat) :
    taskAssignments (monitorProgress s t).2 k = taskAssignments s k := by
  simp only [monitorProgress]
  split <;> rfl

theorem tasksAny_monitorProgress (s : Store) (t k : Nat) :
    ((monitorProgress s t).2.tasks.any fun r => r.id = k) =
      (s.tasks.any fun r => r.id = k) := by
  simp only [monitorProgress]
  split
  · rw [tasksAny_finalizeTask]
    rfl
  · rfl

theorem monitorProgress_result (s : Store) (t : Nat) :
    (monitorProgress s t).1 =
      { completed := ((taskAssignments s t).filter
          fun a => a.status = "completed").length,
        total := (taskAssignments s t).length,
        progress := if (taskAssignments s t).length > 0 then
            roundPct (((taskAssignments s t).filter
              fun a => a.status = "completed").length) (taskAssignments s t).length
          else 0 } := by
  simp only [monitorProgress]
  split <;> rfl

theorem monitorProgress_pos (s : Store) (t : Nat)
    (hcond : ((taskAssignments s t).filter fun a => a.status = "completed").length =
        (taskAssignments s t).length ∧ (taskAssignments s t).length > 0) :
    (monitorProgress s t).2 =
      finalizeTask (addProgressUpdate s t "atlantis" "ATLANTIS"
        ("Overall progress: " ++
          toString (((taskAssignments s t).filter
            fun a => a.status = "completed").length) ++ "/" ++
          toString (taskAssignments s t).length ++ " assignments completed")
        (some (Int.ofNat (if (taskAssignments s t).length > 0 then
            roundPct (((taskAssignments s t).filter
              fun a => a.status = "completed").length) (taskAssignments s t).length
          else 0)))) t := by
  simp only [monitorProgress]
  rw [if_pos hcond]

theorem monitorProgress_neg (s : Store) (t : Nat)
    (hcond : ¬(((taskAssignments s t).filter fun a => a.status = "completed").length =
        (taskAssignments s t).length ∧ (taskAssignments s t).length > 0)) :
    (monitorProgress s t).2.tasks = s.tasks := by
  simp only [monitorProgress]
  rw [if_neg hcond]
  rfl

/-- C3: `monitorProgress` (the spec's `checkProgress`) finalizes the
task — sets status `completed`, stamps `completed_at`, emits a 100%
progress update — exactly when `completed == total` and `total > 0`
(otherwise the task row is untouched), and it is idempotent once
finalized: a second call re-observes `completed == total`, runs
without error, and the task's status remains `completed`. -/
theorem C3_monitor_finalize_idempotent (s : Store) (t : Nat)
    (hTask : (s.tasks.any fun row => row.id = t) = true) :
    ((((taskAssignments s t).filter fun a => a.status = "completed").length =
        (taskAssignments s t).length ∧ (taskAssignments s t).length > 0) →
      taskStatusOf (monitorProgress s t).2 t = some "completed" ∧
      (∃ ts, (((monitorProgress s t).2.tasks.find? fun r => r.id = t).map
        fun r => r.completed_at) = some (some ts)) ∧
      (∃ u ∈ (monitorProgress s t).2.updates,
        u.task_id = t ∧ u.progress_percentage = some 100) ∧
      (monitorProgress (monitorProgress s t).2 t).1.completed =
        (monitorProgress (monitorProgress s t).2 t).1.total ∧
      (monitorProgress (monitorProgress s t).2 t).1.total > 0 ∧
      taskStatusOf (monitorProgress (monitorProgress s t).2 t).2 t =
        some "completed") ∧
    (¬(((taskAssignments s t).filter fun a => a.status = "completed").length =
        (taskAssignments s t).length ∧ (taskAssignments s t).length > 0) →
      (monitorProgress s t).2.tasks = s.tasks) := by
  constructor
  · intro hcond
    have hpos := monitorProgress_pos s t hcond
    refine ⟨?_, ?_, ?_, ?_, ?_, ?_⟩
    · rw [hpos]
      exact taskStatusOf_finalizeTask _ t (by
        rw [tasksAny_addProgressUpdate]; exact hTask)
    · rw [hpos]
      exact ⟨_, taskCompletedAt_finalizeTask _ t (by
        rw [tasksAny_addProgressUpdate]; exact hTask)⟩
    · rw [hpos]
      exact finalize_emits_100 _ t
    · rw [monitorProgress_result, taskAssignments_monitorProgress]
      exact hcond.1
    · rw [monitorProgress_result, taskAssignments_monitorProgress]
      exact hcond.2
    · have hcond2 : ((taskAssignments (monitorProgress s t).2 t).filter
          fun a => a.status = "completed").length =
          (taskAssignments (monitorProgress s t).2 t).length ∧
          (taskAssignments (monitorProgress s t).2 t).length > 0 := by
        rw [taskAssignments_monitorProgress]
        exact hcond
      rw [monitorProgress_pos _ t hcond2]
      exact taskStatusOf_finalizeTask _ t (by
        rw [tasksAny_addProgressUpdate, tasksAny_monitorProgress]; exact hTask)
  · exact monitorProgress_neg s t

/-- Witness for C3 on the concrete store whose single assignment has
completed. -/
theorem C3_monitor_finalize_idempotent_witness :
    taskStatusOf (monitorProgress completedRunStore 1).2 1 = some "completed" ∧
    taskStatusOf
      (monitorProgress (monitorProgress completedRunStore 1).2 1).2 1 =
      some "completed" := by
  have h := (C3_monitor_finalize_idempotent completedRunStore 1 rfl).1
    ⟨rfl, by decide⟩
  exact ⟨h.1, h.2.2.2.2.2⟩

end Atlantis
